import Mathlib

/-!
# Artifact store and element handles of the web-scenario plugin

A shallow embedding of `storage.go` (the `Storage` artifact store, all of its
functions) and of `element.go` (the `Element` handle: `Select`, `SelectAll`,
the readers, and the `__index` and `__call` entries of its Lua metatable),
followed by the properties proved about them.

Conventions of the embedding.

* Go strings are Lean `String`s; the byte-level library routines
  (`path/filepath`, `strings`, `fmt`, `time`) work on the character list.
  Every byte those routines inspect (`/`, `.`, the digits) is ASCII, so the
  character view and the byte view agree.
* `path/filepath` is the POSIX build: the separator is `/`, there are no volume
  names.
* Go `int` is the 64-bit two's-complement integer; `int` arithmetic wraps.
* The mutex of `Storage` is not modelled: every method is one atomic step on
  the state, which is what the lock provides for the in-memory bookkeeping.
* The operating system and the browser are parameters: a record of the
  results the calls return. A failed call returns an error value.
-/

namespace WebScenario

/-! ## Library layer: `strings`, `path/filepath` -/

/-- The path separator test `os.IsPathSeparator` of the POSIX build. -/
def isPathSeparator (c : Char) : Bool := c == '/'

/-- The Go function `strings.HasSuffix(s, suffix)`. -/
def strings.HasSuffix (s suffix : String) : Bool := suffix.data.isSuffixOf s.data

/-- The Go function `filepath.IsAbs` of the POSIX build: `strings.HasPrefix(path, "/")`. -/
def filepath.IsAbs (path : String) : Bool := ("/".data).isPrefixOf path.data

/-- Cut a path at every separator: the path elements between the separators,
empty elements included. -/
def splitSep : List Char → List (List Char)
  | [] => [[]]
  | c :: cs =>
    if isPathSeparator c then [] :: splitSep cs
    else
      match splitSep cs with
      | [] => [[c]]
      | h :: t => (c :: h) :: t

/-- The backtracking of `filepath.Clean` at a `..` element, on the output
buffer held in reverse (last written byte first):
`out.w--; for out.w > dotdot && !os.IsPathSeparator(out.index(out.w)) { out.w-- }`.
Each call drops one byte `c`; the loop goes on while more than `dotdot` bytes
remain and the byte just dropped is not a separator. -/
def backtrack (dotdot : Nat) : List Char → List Char
  | [] => []
  | c :: rest =>
    if rest.length > dotdot && !isPathSeparator c then backtrack dotdot rest else rest

/-- One round of the main loop of `filepath.Clean`, reading one path element
`el` (the bytes between two separators). The state is the output buffer in
reverse and the index `dotdot` below which `..` must not backtrack.
The four branches are the four cases of the `switch` in the Go loop: an empty
element, a `.` element, a `..` element, a real element. -/
def cleanStep (rooted : Bool) (st : List Char × Nat) (el : List Char) : List Char × Nat :=
  let out := st.1
  let dotdot := st.2
  if el = [] then (out, dotdot)
  else if el = ['.'] then (out, dotdot)
  else if el = ['.', '.'] then
    if out.length > dotdot then (backtrack dotdot out, dotdot)
    else if !rooted then
      let out1 := if out.length > 0 then '/' :: out else out
      let out2 := '.' :: '.' :: out1
      (out2, out2.length)
    else (out, dotdot)
  else
    let out1 :=
      if (rooted && out.length != 1) || (!rooted && out.length != 0) then '/' :: out else out
    (el.reverse ++ out1, dotdot)

/-- The Go function `filepath.Clean` (POSIX) on a byte list. -/
def cleanChars (path : List Char) : List Char :=
  if path = [] then ['.']
  else
    let rooted := isPathSeparator (path.headD ' ')
    let init : List Char × Nat := if rooted then (['/'], 1) else ([], 0)
    let out := ((splitSep path).foldl (cleanStep rooted) init).1
    if out.length = 0 then ['.'] else out.reverse

/-- The Go function `filepath.Clean` (POSIX). -/
def filepath.Clean (path : String) : String := ⟨cleanChars path.data⟩

/-- The Go function `strings.Join(elems, "/")`. -/
def joinSep : List String → String
  | [] => ""
  | [e] => e
  | e :: es => e ++ "/" ++ joinSep es

/-- The Go function `filepath.Join` (POSIX): leading empty elements are
skipped, the rest is joined with the separator and cleaned; all empty gives
the empty string. -/
def filepath.Join : List String → String
  | [] => ""
  | e :: es => if e = "" then filepath.Join es else filepath.Clean (joinSep (e :: es))

/-- The Go function `filepath.Dir` (POSIX): everything up to and including the
last separator, cleaned. -/
def filepath.Dir (path : String) : String :=
  filepath.Clean ⟨(path.data.reverse.dropWhile (fun c => !isPathSeparator c)).reverse⟩

/-- The Go function `filepath.Base` (POSIX). -/
def filepath.Base (path : String) : String :=
  if path = "" then "."
  else
    let stripped := (path.data.reverse.dropWhile isPathSeparator)
    let last := (stripped.takeWhile (fun c => !isPathSeparator c)).reverse
    if last = [] then "/" else ⟨last⟩

/-- The scan of `filepath.Ext` from the end of the path, on the reversed
bytes; `acc` holds the bytes already passed. -/
def extScan : List Char → List Char → List Char
  | [], _ => []
  | c :: rest, acc =>
    if isPathSeparator c then []
    else if c = '.' then '.' :: acc
    else extScan rest (c :: acc)

/-- The Go function `filepath.Ext`: the suffix beginning at the final dot of the
final element, empty if there is none. -/
def filepath.Ext (path : String) : String := ⟨extScan path.data.reverse []⟩

/-! ## Library layer: `int`, `fmt`, `time` -/

/-- The value of a Go `int` (64-bit two's complement) holding the mathematical
integer `x` after wrap-around. -/
def wrapInt (x : Int) : Int := (x + 2 ^ 63) % 2 ^ 64 - 2 ^ 63

/-- The decimal loop of `fmt` and `time`: write the digits of `u` in front of
`buf`, last digit first. `u` is below `2 ^ 64`, so it has at most twenty
digits, and the twenty rounds of `decimal` reach its first digit. -/
def decimalLoop : Nat → Nat → List Char → List Char
  | 0, u, buf => Nat.digitChar (u % 10) :: buf
  | fuel + 1, u, buf =>
    if u ≥ 10 then decimalLoop fuel (u / 10) (Nat.digitChar (u % 10) :: buf)
    else Nat.digitChar u :: buf

/-- The decimal digits of an unsigned 64-bit value. -/
def decimal (u : Nat) : List Char := decimalLoop 19 u []

/-- The Go call `fmt.Sprintf("%06d", x)` on an `int`: `fmtInteger` with the zero
flag and width 6. The precision is the width, less one when a sign is written;
the digits are padded with zeros up to the precision and the sign goes in
front. The result is never shorter than the width, so no space padding follows. -/
def Sprintf06d (x : Int) : String :=
  let negative := decide (x < 0)
  let u := x.natAbs
  let prec := if negative then 6 - 1 else 6
  let digits := decimal u
  let padded := List.replicate (prec - digits.length) '0' ++ digits
  ⟨if negative then '-' :: padded else padded⟩

/-- The Go function `appendInt(b, x, width)` of package `time`, as the bytes it
appends: a minus sign for a negative `x`, then the digits padded with zeros to
`width`. -/
def appendInt (x : Int) (width : Nat) : List Char :=
  let digits := decimal x.natAbs
  let padded := List.replicate (width - digits.length) '0' ++ digits
  if x < 0 then '-' :: padded else padded

/-- A `time.Time` as the calendar fields `Format` reads from it
(`t.Date()` and `t.Clock()`). -/
structure Time where
  year : Int
  month : Nat
  day : Nat
  hour : Nat
  minute : Nat
  second : Nat
deriving DecidableEq, Repr

/-- The ranges of the fields that `t.Date()` and `t.Clock()` return. -/
def Time.inRange (t : Time) : Prop :=
  1 ≤ t.month ∧ t.month ≤ 12 ∧ 1 ≤ t.day ∧ t.day ≤ 31 ∧
  t.hour ≤ 23 ∧ t.minute ≤ 59 ∧ t.second ≤ 59

instance (t : Time) : Decidable t.inRange := by
  unfold Time.inRange; infer_instance

/-- The Go call `t.Format("20060102T150405")`: the layout is the chunks
`2006` (year, width 4), `01` (month, width 2), `02` (day, width 2), the literal
`T`, `15` (hour, width 2), `04` (minute, width 2), `05` (second, width 2). -/
def Time.Format (t : Time) : String :=
  ⟨appendInt t.year 4 ++ appendInt t.month 2 ++ appendInt t.day 2 ++ ['T'] ++
    appendInt t.hour 2 ++ appendInt t.minute 2 ++ appendInt t.second 2⟩

/-! ## Library layer: `os` -/

/-- A Go `error` value returned by package `os`; `isExist` is the answer of
`errors.Is(err, os.ErrExist)`. -/
structure GoError where
  msg : String
  isExist : Bool
deriving DecidableEq, Repr

/-- An open `*os.File`: the name it was opened with. -/
structure File where
  name : String
deriving DecidableEq, Repr

/-- The open flags of package `os` on Linux. -/
def O_WRONLY : Nat := 1
/-- The flag `os.O_CREATE`. -/
def O_CREATE : Nat := 64
/-- The flag `os.O_APPEND`. -/
def O_APPEND : Nat := 1024

/-- The operating system as the store sees it: the result each call returns.
`none` is a `nil` error. -/
structure OS where
  Getwd : Except GoError String
  MkdirAll : String → Nat → Option GoError
  OpenFile : String → Nat → Nat → Except GoError File
  WriteFile : String → List (Fin 256) → Nat → Option GoError

/-- What a method of the store does, in program order: the registration of an
artifact path and the calls into package `os`. -/
inductive Effect where
  | register (path : String)
  | mkdirAll (path : String) (perm : Nat)
  | openFile (name : String) (flag perm : Nat)
  | writeFile (name : String) (data : List (Fin 256)) (perm : Nat)
deriving DecidableEq, Repr

/-- Whether an effect is a call into package `os`. -/
def Effect.isOsCall : Effect → Bool
  | .register _ => false
  | .mkdirAll _ _ => true
  | .openFile _ _ _ => true
  | .writeFile _ _ _ => true

/-! ## `storage.go` -/

/-- The struct `Storage`. The map `guids` is an association list with at most
one pair per key; `autoid` is a Go `int`. -/
structure Storage where
  Dir : String
  artifacts : List String
  guids : List (String × String)
  autoid : Int
deriving DecidableEq, Repr

/-- The map read `m[k]` with the comma-ok form. -/
def mapGet : List (String × String) → String → Option String
  | [], _ => none
  | (k1, v) :: m, k => if k1 = k then some v else mapGet m k

/-- The builtin `delete(m, k)`. -/
def mapDelete : List (String × String) → String → List (String × String)
  | [], _ => []
  | (k1, v) :: m, k => if k1 = k then mapDelete m k else (k1, v) :: mapDelete m k

/-- The map write `m[k] = v`. -/
def mapSet (m : List (String × String)) (k v : String) : List (String × String) :=
  (k, v) :: mapDelete m k

/-- The first half of `NewStorage`: the directory `dir` it computes from its
arguments, before the test `filepath.IsAbs(dir)`. -/
def newStorageDir (basedir scriptPath : String) (timestamp : Time) : String :=
  let basedir := if basedir = "" then filepath.Dir scriptPath else basedir
  let name := filepath.Base scriptPath
  let name : String := ⟨name.data.take (name.length - (filepath.Ext name).length)⟩
  filepath.Join [basedir, name, timestamp.Format]

/-- The function `NewStorage`. -/
def NewStorage (os : OS) (basedir scriptPath : String) (timestamp : Time) :
    Except GoError Storage :=
  let dir := newStorageDir basedir scriptPath timestamp
  if !filepath.IsAbs dir then
    match os.Getwd with
    | .error err => .error err
    | .ok cwd => .ok { Dir := filepath.Join [cwd, dir], artifacts := [], guids := [], autoid := 0 }
  else
    .ok { Dir := dir, artifacts := [], guids := [], autoid := 0 }

/-- The outcome of `Storage.Open`: the store afterwards, the returned
`(*os.File, error)` pair, and the effects in program order. -/
structure OpenResult where
  store : Storage
  ret : Except GoError File
  effects : List Effect

/-- The method `Storage.Open`. -/
def Storage.Open (os : OS) (s : Storage) (name : String) : OpenResult :=
  let p := filepath.Join [s.Dir, name]
  let s1 := { s with artifacts := s.artifacts ++ [p] }
  let perm := 0o750
  match os.MkdirAll (filepath.Dir p) perm with
  | some err =>
    if err.isExist then
      { store := s1, ret := .error err,
        effects := [.register p, .mkdirAll (filepath.Dir p) perm] }
    else
      { store := s1, ret := os.OpenFile p (O_CREATE ||| O_APPEND ||| O_WRONLY) 0o640,
        effects := [.register p, .mkdirAll (filepath.Dir p) perm,
          .openFile p (O_CREATE ||| O_APPEND ||| O_WRONLY) 0o640] }
  | none =>
    { store := s1, ret := os.OpenFile p (O_CREATE ||| O_APPEND ||| O_WRONLY) 0o640,
      effects := [.register p, .mkdirAll (filepath.Dir p) perm,
        .openFile p (O_CREATE ||| O_APPEND ||| O_WRONLY) 0o640] }

/-- The outcome of `Storage.Save`: the store afterwards, the returned `error`
(`none` is `nil`), and the effects in program order. -/
structure SaveResult where
  store : Storage
  ret : Option GoError
  effects : List Effect

/-- The method `Storage.Save`. -/
def Storage.Save (os : OS) (s : Storage) (name ext : String) (data : List (Fin 256)) :
    SaveResult :=
  let autoid := if name = "" then wrapInt (s.autoid + 1) else s.autoid
  let name := if name = "" then Sprintf06d autoid else name
  let name := if !strings.HasSuffix name ext then name ++ ext else name
  let p := filepath.Join [s.Dir, name]
  let s1 := { s with autoid := autoid, artifacts := s.artifacts ++ [p] }
  let perm := 0o750
  match os.MkdirAll (filepath.Dir p) perm with
  | some err =>
    if err.isExist then
      { store := s1, ret := some err, effects := [.register p, .mkdirAll (filepath.Dir p) perm] }
    else
      { store := s1, ret := os.WriteFile p data 0o644,
        effects := [.register p, .mkdirAll (filepath.Dir p) perm, .writeFile p data 0o644] }
  | none =>
    { store := s1, ret := os.WriteFile p data 0o644,
      effects := [.register p, .mkdirAll (filepath.Dir p) perm, .writeFile p data 0o644] }

/-- The method `Storage.StartDownload`. -/
def Storage.StartDownload (s : Storage) (guid name : String) : Storage :=
  { s with guids := mapSet s.guids guid name }

/-- The method `Storage.CancelDownload`. -/
def Storage.CancelDownload (s : Storage) (guid : String) : Storage :=
  { s with guids := mapDelete s.guids guid }

/-- The method `Storage.CompleteDownload`: the store afterwards and the returned
string. -/
def Storage.CompleteDownload (s : Storage) (guid : String) : Storage × String :=
  match mapGet s.guids guid with
  | some name =>
    let p := filepath.Join [s.Dir, name]
    ({ s with artifacts := s.artifacts ++ [p], guids := mapDelete s.guids guid }, p)
  | none => (s, "")

/-- The method `Storage.Artifacts`: a fresh slice holding the elements of
`s.artifacts`. -/
def Storage.Artifacts (s : Storage) : List String :=
  [] ++ s.artifacts

/-- The operations of the store, for stating what every one of them preserves. -/
inductive StorageOp where
  | Open (name : String)
  | Save (name ext : String) (data : List (Fin 256))
  | StartDownload (guid name : String)
  | CancelDownload (guid : String)
  | CompleteDownload (guid : String)
  | Artifacts
deriving DecidableEq, Repr

/-- The store after one operation, under the operating system `os`. -/
def Storage.step (os : OS) (s : Storage) : StorageOp → Storage
  | .Open name => (s.Open os name).store
  | .Save name ext data => (s.Save os name ext data).store
  | .StartDownload guid name => s.StartDownload guid name
  | .CancelDownload guid => s.CancelDownload guid
  | .CompleteDownload guid => (s.CompleteDownload guid).1
  | .Artifacts => s

/-! ## `element.go` -/

/-- The type `cdp.NodeID` (an `int64`). -/
abbrev NodeID := Int

/-- A `*cdp.Node` as materialised by the browser: the identifier it stands for. -/
structure Node where
  NodeID : NodeID
deriving DecidableEq, Repr

/-- A `*Tab`: the identity of the session a handle points to. -/
abbrev TabPtr := Nat

/-- The struct `Element`. -/
structure Element where
  query : String
  ids : List NodeID
  tab : TabPtr
deriving DecidableEq, Repr

/-- The type `ElementsArray`. -/
abbrev ElementsArray := List Element

/-- The browser session behind `Tab.Run` and `Tab.RunSelector`, which live
outside `element.go`: for each action `element.go` builds, what the run leaves
in the out-parameters, or the Lua error the run raises (`.error msg`).
A raised Lua error unwinds the calling Go function. -/
structure Browser where
  /-- The call `t.Run(L, chromedp.Nodes(ids, &nodes, chromedp.ByNodeID))`. -/
  RunNodes : TabPtr → List NodeID → Except String (List Node)
  /-- The call `t.Run(L, chromedp.NodeIDs(query, &ids, chromedp.ByQuery, chromedp.FromNode(n)))`. -/
  RunNodeIDsFrom : TabPtr → String → Node → Except String (List NodeID)
  /-- The call `t.RunSelector(L, query, chromedp.Nodes(ids, &nodes, chromedp.ByNodeID))`. -/
  RunSelectorNodes : TabPtr → String → List NodeID → Except String (List Node)
  /-- The call `t.RunSelector(L, query, chromedp.NodeIDs(query, &ids, chromedp.ByQueryAll,
  chromedp.FromNode(n), chromedp.AtLeast(0)))`. -/
  RunSelectorNodeIDsAll : TabPtr → String → Node → Except String (List NodeID)
  /-- The call `t.Run(L, chromedp.Text(ids, &text, chromedp.ByNodeID))`. -/
  RunText : TabPtr → List NodeID → Except String String
  /-- The call `t.Run(L, chromedp.InnerHTML(ids, &html, chromedp.ByNodeID))`. -/
  RunInnerHTML : TabPtr → List NodeID → Except String String
  /-- The call `t.Run(L, chromedp.OuterHTML(ids, &html, chromedp.ByNodeID))`. -/
  RunOuterHTML : TabPtr → List NodeID → Except String String
  /-- The call `t.Run(L, chromedp.Value(ids, &value, chromedp.ByNodeID))`. -/
  RunValue : TabPtr → List NodeID → Except String String
  /-- The call `t.Run(L, chromedp.AttributeValue(ids, name, &value, &ok, chromedp.ByNodeID))`. -/
  RunAttributeValue : TabPtr → List NodeID → String → Except String (String × Bool)

/-- How a Go function called from Lua stops without returning: a raised Lua
error, or the Go run-time panic of an index expression out of range. -/
inductive Abort where
  | luaError (msg : String)
  | indexOutOfRange (index length : Nat)
deriving DecidableEq, Repr

/-- The method `Element.Select`. -/
def Element.Select (b : Browser) (e : Element) (query : String) : Except Abort Element :=
  match b.RunNodes e.tab e.ids with
  | .error msg => .error (.luaError msg)
  | .ok nodes =>
    match nodes with
    | [] => .error (.indexOutOfRange 0 0)
    | node0 :: _ =>
      match b.RunNodeIDsFrom e.tab query node0 with
      | .error msg => .error (.luaError msg)
      | .ok ids => .ok { query := query, ids := ids, tab := e.tab }

/-- The loop `for _, node := range nodes` of `Element.SelectAll`; `es` is the
slice built so far. -/
def selectAllLoop (b : Browser) (e : Element) (query : String) :
    List Node → ElementsArray → Except Abort ElementsArray
  | [], es => .ok es
  | node :: rest, es =>
    match b.RunSelectorNodeIDsAll e.tab query node with
    | .error msg => .error (.luaError msg)
    | .ok ids =>
      selectAllLoop b e query rest
        (es ++ ids.map (fun id => { query := query, ids := [id], tab := e.tab }))

/-- The method `Element.SelectAll`. -/
def Element.SelectAll (b : Browser) (e : Element) (query : String) :
    Except Abort ElementsArray :=
  match b.RunSelectorNodes e.tab query e.ids with
  | .error msg => .error (.luaError msg)
  | .ok nodes => selectAllLoop b e query nodes []

/-- The functions stored in the table `methods` of `RegisterElementType`. -/
inductive Method where
  | all | sendKeys | setValue | click | submit | focus | blur | screenshot
deriving DecidableEq, Repr

/-- The functions stored in the table `getters` of `RegisterElementType`. -/
inductive Getter where
  | GetText | GetInnerHTML | GetOuterHTML | GetValue
deriving DecidableEq, Repr

/-- A Lua value pushed on the stack by the metatable functions. -/
inductive LValue where
  | LString (s : String)
  | LFunction (f : Method)
  | LUserData (e : Element)
deriving DecidableEq, Repr

/-- A call into the browser made while a member is read. -/
inductive BrowserCall where
  | Text (ids : List NodeID)
  | InnerHTML (ids : List NodeID)
  | OuterHTML (ids : List NodeID)
  | Value (ids : List NodeID)
  | AttributeValue (ids : List NodeID) (name : String)
deriving DecidableEq, Repr

/-- The outcome of a Lua Go-function: the values it pushed and returned (their
number is the returned `int`), or the Lua error raised; and the browser calls
it made. -/
structure LResult where
  ret : Except String (List LValue)
  calls : List BrowserCall
deriving Repr

/-- Push the string a browser read left in its out-parameter and return 1. -/
def pushString (r : Except String String) : Except String (List LValue) :=
  match r with
  | .error msg => .error msg
  | .ok v => .ok [.LString v]

/-- The method `Element.GetText`. -/
def Element.GetText (b : Browser) (e : Element) : LResult :=
  { ret := pushString (b.RunText e.tab e.ids), calls := [.Text e.ids] }

/-- The method `Element.GetInnerHTML`. -/
def Element.GetInnerHTML (b : Browser) (e : Element) : LResult :=
  { ret := pushString (b.RunInnerHTML e.tab e.ids), calls := [.InnerHTML e.ids] }

/-- The method `Element.GetOuterHTML`. -/
def Element.GetOuterHTML (b : Browser) (e : Element) : LResult :=
  { ret := pushString (b.RunOuterHTML e.tab e.ids), calls := [.OuterHTML e.ids] }

/-- The method `Element.GetValue`. -/
def Element.GetValue (b : Browser) (e : Element) : LResult :=
  { ret := pushString (b.RunValue e.tab e.ids), calls := [.Value e.ids] }

/-- The method `Element.GetAttribute`, with `name` the string at stack
position 2. -/
def Element.GetAttribute (b : Browser) (e : Element) (name : String) : LResult :=
  { ret :=
      match b.RunAttributeValue e.tab e.ids name with
      | .error msg => .error msg
      | .ok (value, ok) => if ok then .ok [.LString value] else .ok []
    calls := [.AttributeValue e.ids name] }

/-- The table `methods` of `RegisterElementType`. -/
def methods : List (String × Method) :=
  [("all", .all), ("sendKeys", .sendKeys), ("setValue", .setValue), ("click", .click),
   ("submit", .submit), ("focus", .focus), ("blur", .blur), ("screenshot", .screenshot)]

/-- The table `getters` of `RegisterElementType`. -/
def getters : List (String × Getter) :=
  [("text", .GetText), ("innerHTML", .GetInnerHTML), ("outerHTML", .GetOuterHTML),
   ("value", .GetValue)]

/-- Call an entry of `getters` on a handle. -/
def Getter.call (b : Browser) (e : Element) : Getter → LResult
  | .GetText => e.GetText b
  | .GetInnerHTML => e.GetInnerHTML b
  | .GetOuterHTML => e.GetOuterHTML b
  | .GetValue => e.GetValue b

/-- The metamethod `__index` of the element metatable, on a handle `e` (stack
position 1) and a member name `name` (stack position 2). -/
def index (b : Browser) (e : Element) (name : String) : LResult :=
  match getters.lookup name with
  | some f => f.call b e
  | none =>
    match methods.lookup name with
    | some f => { ret := .ok [.LFunction f], calls := [] }
    | none => e.GetAttribute b name

/-- The metamethod `__call` of the element metatable: chained selection. -/
def call (b : Browser) (e : Element) (query : String) : Except Abort LValue :=
  match e.Select b query with
  | .error a => .error a
  | .ok e1 => .ok (.LUserData e1)

/-! ## Definitions written from the words of the specification -/

/-- Written from the specification: the 6-digit zero-padded decimal of `n`. -/
def sixDigitDecimal (n : Nat) : String :=
  ⟨[Nat.digitChar (n / 100000 % 10), Nat.digitChar (n / 10000 % 10),
    Nat.digitChar (n / 1000 % 10), Nat.digitChar (n / 100 % 10),
    Nat.digitChar (n / 10 % 10), Nat.digitChar (n % 10)]⟩

/-- The three tiers of member access. -/
inductive Tier where
  | reader | method | attribute
deriving DecidableEq, Repr

/-- Written from the specification: the built-in readers. -/
def readerNames : List String := ["text", "innerHTML", "outerHTML", "value"]

/-- Written from the specification: the built-in methods. -/
def methodNames : List String :=
  ["sendKeys", "setValue", "click", "submit", "focus", "blur", "screenshot", "all"]

/-- Written from the specification: the tier a member name resolves in, readers
first, then methods, then the attribute fallback. -/
def specTier (name : String) : Tier :=
  if name ∈ readerNames then .reader
  else if name ∈ methodNames then .method
  else .attribute

/-- Written from the specification: the file name `Save` registers when the
counter is `k`. The base is `name` if it is non-empty and otherwise the 6-digit
zero-padded decimal of `k + 1`; `ext` is appended unless the base already ends
with it. -/
def specSaveName (k : Int) (name ext : String) : String :=
  let base := if name ≠ "" then name else sixDigitDecimal (k + 1).toNat
  if ext.data.isSuffixOf base.data then base else base ++ ext

/-- Written from the specification: the fixed-width stamp `YYYYMMDDTHHMMSS` of
a time whose year has four digits. -/
def specStamp (t : Time) : String :=
  let y := t.year.toNat
  ⟨[Nat.digitChar (y / 1000 % 10), Nat.digitChar (y / 100 % 10), Nat.digitChar (y / 10 % 10),
    Nat.digitChar (y % 10),
    Nat.digitChar (t.month / 10 % 10), Nat.digitChar (t.month % 10),
    Nat.digitChar (t.day / 10 % 10), Nat.digitChar (t.day % 10),
    'T',
    Nat.digitChar (t.hour / 10 % 10), Nat.digitChar (t.hour % 10),
    Nat.digitChar (t.minute / 10 % 10), Nat.digitChar (t.minute % 10),
    Nat.digitChar (t.second / 10 % 10), Nat.digitChar (t.second % 10)]⟩

/-! ## Concrete environments and stores -/

/-- An operating system on which every call succeeds. -/
def osAllOk : OS where
  Getwd := .ok "/home/ayd"
  MkdirAll := fun _ _ => none
  OpenFile := fun name _ _ => .ok { name := name }
  WriteFile := fun _ _ _ => none

/-- The error `permission denied`; it is not `os.ErrExist`. -/
def errPermission : GoError := { msg := "permission denied", isExist := false }

/-- The error `file exists`; it is `os.ErrExist`. -/
def errExist : GoError := { msg := "file exists", isExist := true }

/-- An operating system on which `MkdirAll` fails with `permission denied`
and the calls that create the file succeed. -/
def osMkdirDenied : OS where
  Getwd := .ok "/home/ayd"
  MkdirAll := fun _ _ => some errPermission
  OpenFile := fun name _ _ => .ok { name := name }
  WriteFile := fun _ _ _ => none

/-- An operating system on which every call fails. -/
def osAllFail : OS where
  Getwd := .error errPermission
  MkdirAll := fun _ _ => some errPermission
  OpenFile := fun _ _ _ => .error errPermission
  WriteFile := fun _ _ _ => some errPermission

/-- The start of a run: 2 January 2024, 03:04:05. -/
def time0 : Time := { year := 2024, month := 1, day := 2, hour := 3, minute := 4, second := 5 }

/-- A store as `NewStorage` builds it for the script `login.lua`. -/
def store0 : Storage :=
  { Dir := "/var/out/login/20240102T030405", artifacts := [], guids := [], autoid := 0 }

/-- A browser whose runs all return normally with nothing found: no nodes, no
identifiers, empty strings, no attribute. -/
def browserNothing : Browser where
  RunNodes := fun _ _ => .ok []
  RunNodeIDsFrom := fun _ _ _ => .ok []
  RunSelectorNodes := fun _ _ _ => .ok []
  RunSelectorNodeIDsAll := fun _ _ _ => .ok []
  RunText := fun _ _ => .ok ""
  RunInnerHTML := fun _ _ => .ok ""
  RunOuterHTML := fun _ _ => .ok ""
  RunValue := fun _ _ => .ok ""
  RunAttributeValue := fun _ _ _ => .ok ("", false)

/-- A page with the lists `10` and `20`; list `10` has the items `11` and `12`,
list `20` has none. Every run succeeds. -/
def browserLists : Browser where
  RunNodes := fun _ ids => .ok (ids.map Node.mk)
  RunNodeIDsFrom := fun _ _ n => .ok (if n.NodeID = 10 then [11, 12] else [])
  RunSelectorNodes := fun _ _ ids => .ok (ids.map Node.mk)
  RunSelectorNodeIDsAll := fun _ _ n => .ok (if n.NodeID = 10 then [11, 12] else [])
  RunText := fun _ _ => .ok "first"
  RunInnerHTML := fun _ _ => .ok "<li>first</li>"
  RunOuterHTML := fun _ _ => .ok "<ul><li>first</li></ul>"
  RunValue := fun _ _ => .ok "on"
  RunAttributeValue := fun _ _ name => .ok (if name = "id" then ("menu", true) else ("", false))

/-! ## Test vectors of the library layer -/

theorem test_Clean_inner_dotdot : filepath.Clean "/a/b/../c/./d//e/" = "/a/c/d/e" := by decide
theorem test_Clean_leading_dotdot : filepath.Clean "a/../../b" = "../b" := by decide
theorem test_Clean_rooted_dotdot : filepath.Clean "/../a" = "/a" := by decide
theorem test_Clean_empty : filepath.Clean "" = "." := by decide
theorem test_Clean_to_dot : filepath.Clean "a/.." = "." := by decide
theorem test_Join_two : filepath.Join ["/tmp/out", "shot.jpg"] = "/tmp/out/shot.jpg" := by decide
theorem test_Join_skips_empty : filepath.Join ["", "a", ""] = "a" := by decide
theorem test_Dir_of_path : filepath.Dir "/x/y/login.lua" = "/x/y" := by decide
theorem test_Dir_of_name : filepath.Dir "login.lua" = "." := by decide
theorem test_Base_of_path : filepath.Base "/x/y/login.lua" = "login.lua" := by decide
theorem test_Base_trailing_slash : filepath.Base "/x/y/" = "y" := by decide
theorem test_Base_only_slashes : filepath.Base "///" = "/" := by decide
theorem test_Ext_last_dot : filepath.Ext "login.tar.lua" = ".lua" := by decide
theorem test_Ext_none : filepath.Ext "a.b/login" = "" := by decide

theorem test_Sprintf06d_one : Sprintf06d 1 = "000001" := by decide
theorem test_Sprintf06d_seven_digits : Sprintf06d 1234567 = "1234567" := by decide
theorem test_Sprintf06d_negative : Sprintf06d (-4) = "-00004" := by decide
theorem test_wrapInt_overflow : wrapInt (2 ^ 63 - 1 + 1) = -2 ^ 63 := by decide
theorem test_Sprintf06d_overflow : Sprintf06d (wrapInt (2 ^ 63 - 1 + 1)) = "-9223372036854775808" := by decide
theorem test_Format_time0 : (Time.mk 2024 1 2 3 4 5).Format = "20240102T030405" := by decide
theorem test_Format_year_10000 : (Time.mk 10000 1 2 3 4 5).Format = "100000102T030405" := by decide

/-! ## Lemmas on the library layer -/

theorem decimalLoop_small (fuel u : Nat) (buf : List Char) (h : u < 10) :
    decimalLoop fuel u buf = Nat.digitChar u :: buf := by
  cases fuel with
  | zero => simp [decimalLoop, Nat.mod_eq_of_lt h]
  | succ f =>
    have : ¬ u ≥ 10 := by omega
    simp [decimalLoop, this]

theorem decimalLoop_step (fuel u : Nat) (buf : List Char) (h : 10 ≤ u) :
    decimalLoop (fuel + 1) u buf = decimalLoop fuel (u / 10) (Nat.digitChar (u % 10) :: buf) := by
  simp [decimalLoop, h]

/-- One more round than the number of digits changes nothing: the twenty rounds
of `decimal` are enough for every value below `10 ^ 20`. -/
theorem decimalLoop_fuel (fuel : Nat) : ∀ (u : Nat) (buf : List Char), u < 10 ^ (fuel + 1) →
    decimalLoop (fuel + 1) u buf = decimalLoop fuel u buf := by
  induction fuel with
  | zero =>
    intro u buf h
    have h10 : u < 10 := by simpa using h
    rw [decimalLoop_small _ _ _ h10, decimalLoop_small _ _ _ h10]
  | succ f ih =>
    intro u buf h
    by_cases h10 : u < 10
    · rw [decimalLoop_small _ _ _ h10, decimalLoop_small _ _ _ h10]
    · have hge : 10 ≤ u := by omega
      rw [decimalLoop_step _ _ _ hge, decimalLoop_step _ _ _ hge]
      apply ih
      have : 10 ^ (f + 1 + 1) = 10 * 10 ^ (f + 1) := by ring
      rw [this] at h
      omega

/-- More rounds than the twenty of `decimal` give the same digits for every
value below `10 ^ 20`, in particular for every unsigned 64-bit value. -/
theorem decimal_stable (u : Nat) (h : u < 10 ^ 20) (k : Nat) :
    decimalLoop (19 + k) u [] = decimal u := by
  induction k with
  | zero => rfl
  | succ k ih =>
    have hpow : (10 : Nat) ^ 20 ≤ 10 ^ (19 + k + 1) :=
      Nat.pow_le_pow_right (by decide) (by omega)
    have hlt : u < 10 ^ (19 + k + 1) := Nat.lt_of_lt_of_le h hpow
    have := decimalLoop_fuel (19 + k) u [] hlt
    rw [← ih, ← this]
    rfl

theorem wrapInt_inRange (x : Int) (h0 : -2 ^ 63 ≤ x) (h1 : x < 2 ^ 63) : wrapInt x = x := by
  unfold wrapInt
  omega

/-- Below one million, `%06d` writes exactly the six decimal digits. -/
theorem Sprintf06d_sixDigit (n : Nat) (h : n < 1000000) :
    Sprintf06d (n : Int) = sixDigitDecimal n := by
  have hneg : ¬ ((n : Int) < 0) := by omega
  have z : Nat.digitChar 0 = '0' := by decide
  simp only [Sprintf06d, sixDigitDecimal, hneg, decide_False, Int.natAbs_ofNat, decimal]
  by_cases h1 : n < 10
  · rw [decimalLoop_small _ _ _ h1]
    have e1 : n / 100000 % 10 = 0 := by omega
    have e2 : n / 10000 % 10 = 0 := by omega
    have e3 : n / 1000 % 10 = 0 := by omega
    have e4 : n / 100 % 10 = 0 := by omega
    have e5 : n / 10 % 10 = 0 := by omega
    have e6 : n % 10 = n := by omega
    simp [e1, e2, e3, e4, e5, e6, List.replicate, z]
  by_cases h2 : n < 100
  · rw [decimalLoop_step 18 _ _ (by omega), decimalLoop_small _ _ _ (by omega)]
    have e1 : n / 100000 % 10 = 0 := by omega
    have e2 : n / 10000 % 10 = 0 := by omega
    have e3 : n / 1000 % 10 = 0 := by omega
    have e4 : n / 100 % 10 = 0 := by omega
    have e5 : n / 10 % 10 = n / 10 := by omega
    simp [e1, e2, e3, e4, e5, List.replicate, z]
  by_cases h3 : n < 1000
  · rw [decimalLoop_step 18 _ _ (by omega), decimalLoop_step 17 _ _ (by omega),
      decimalLoop_small _ _ _ (by omega)]
    have e1 : n / 100000 % 10 = 0 := by omega
    have e2 : n / 10000 % 10 = 0 := by omega
    have e3 : n / 1000 % 10 = 0 := by omega
    have e4 : n / 100 % 10 = n / 10 / 10 := by omega
    simp [e1, e2, e3, e4, List.replicate, z]
  by_cases h4 : n < 10000
  · rw [decimalLoop_step 18 _ _ (by omega), decimalLoop_step 17 _ _ (by omega),
      decimalLoop_step 16 _ _ (by omega), decimalLoop_small _ _ _ (by omega)]
    have e1 : n / 100000 % 10 = 0 := by omega
    have e2 : n / 10000 % 10 = 0 := by omega
    have e3 : n / 1000 % 10 = n / 10 / 10 / 10 := by omega
    have e4 : n / 100 % 10 = n / 10 / 10 % 10 := by omega
    simp [e1, e2, e3, e4, List.replicate, z]
  by_cases h5 : n < 100000
  · rw [decimalLoop_step 18 _ _ (by omega), decimalLoop_step 17 _ _ (by omega),
      decimalLoop_step 16 _ _ (by omega), decimalLoop_step 15 _ _ (by omega),
      decimalLoop_small _ _ _ (by omega)]
    have e1 : n / 100000 % 10 = 0 := by omega
    have e2 : n / 10000 % 10 = n / 10 / 10 / 10 / 10 := by omega
    have e3 : n / 1000 % 10 = n / 10 / 10 / 10 % 10 := by omega
    have e4 : n / 100 % 10 = n / 10 / 10 % 10 := by omega
    simp [e1, e2, e3, e4, List.replicate, z]
  · rw [decimalLoop_step 18 _ _ (by omega), decimalLoop_step 17 _ _ (by omega),
      decimalLoop_step 16 _ _ (by omega), decimalLoop_step 15 _ _ (by omega),
      decimalLoop_step 14 _ _ (by omega), decimalLoop_small _ _ _ (by omega)]
    have e1 : n / 100000 % 10 = n / 10 / 10 / 10 / 10 / 10 := by omega
    have e2 : n / 10000 % 10 = n / 10 / 10 / 10 / 10 % 10 := by omega
    have e3 : n / 1000 % 10 = n / 10 / 10 / 10 % 10 := by omega
    have e4 : n / 100 % 10 = n / 10 / 10 % 10 := by omega
    simp [e1, e2, e3, e4, List.replicate, z]

/-! ## Lemmas on the map of pending downloads -/

theorem mapGet_mapDelete_self (m : List (String × String)) (k : String) :
    mapGet (mapDelete m k) k = none := by
  induction m with
  | nil => rfl
  | cons p m ih =>
    obtain ⟨k1, v⟩ := p
    by_cases h : k1 = k
    · simpa [mapDelete, h] using ih
    · simp [mapDelete, mapGet, h, ih]

theorem mapGet_mapDelete_other (m : List (String × String)) (k g : String) (h : g ≠ k) :
    mapGet (mapDelete m k) g = mapGet m g := by
  induction m with
  | nil => rfl
  | cons p m ih =>
    obtain ⟨k1, v⟩ := p
    by_cases hp : k1 = k
    · have hg : ¬ k = g := fun e => h e.symm
      simp [mapDelete, mapGet, hp, hg, ih]
    · by_cases hg : k1 = g
      · subst hg
        simp [mapDelete, mapGet, hp]
      · simp [mapDelete, mapGet, hp, hg, ih]

theorem mapDelete_absent (m : List (String × String)) (k : String) (h : mapGet m k = none) :
    mapDelete m k = m := by
  induction m with
  | nil => rfl
  | cons p m ih =>
    obtain ⟨k1, v⟩ := p
    by_cases hp : k1 = k
    · simp [mapGet, hp] at h
    · simp only [mapGet, hp, if_false] at h
      simp [mapDelete, hp, ih h]

theorem mapGet_mapSet_self (m : List (String × String)) (k v : String) :
    mapGet (mapSet m k v) k = some v := by
  simp [mapSet, mapGet]

theorem mapGet_mapSet_other (m : List (String × String)) (k v g : String) (h : g ≠ k) :
    mapGet (mapSet m k v) g = mapGet m g := by
  have hk : ¬ k = g := fun e => h e.symm
  simp [mapSet, mapGet, hk, mapGet_mapDelete_other m k g h]

/-! ## Lemmas on the store -/

theorem Open_store (os : OS) (s : Storage) (name : String) :
    (s.Open os name).store = { s with artifacts := s.artifacts ++ [filepath.Join [s.Dir, name]] } := by
  simp only [Storage.Open]
  split
  · split <;> rfl
  · rfl

theorem Save_store (os : OS) (s : Storage) (name ext : String) (data : List (Fin 256)) :
    (s.Save os name ext data).store =
      { s with
        autoid := if name = "" then wrapInt (s.autoid + 1) else s.autoid
        artifacts := s.artifacts ++
          [filepath.Join [s.Dir,
            if strings.HasSuffix (if name = "" then Sprintf06d (wrapInt (s.autoid + 1)) else name) ext
            then (if name = "" then Sprintf06d (wrapInt (s.autoid + 1)) else name)
            else (if name = "" then Sprintf06d (wrapInt (s.autoid + 1)) else name) ++ ext]] } := by
  unfold Storage.Save
  by_cases hn : name = ""
  · simp only [hn, if_true]
    by_cases hs : strings.HasSuffix (Sprintf06d (wrapInt (s.autoid + 1))) ext = true
    · simp only [hs]
      split
      · split <;> simp
      · simp
    · simp only [hs]
      split
      · split <;> simp
      · simp
  · simp only [hn, if_false]
    by_cases hs : strings.HasSuffix name ext = true
    · simp only [hs]
      split
      · split <;> simp
      · simp
    · simp only [hs]
      split
      · split <;> simp
      · simp

theorem Save_fresh (os : OS) (s : Storage) (ext : String) (data : List (Fin 256)) :
    (s.Save os "" ext data).store =
      { s with
        autoid := wrapInt (s.autoid + 1)
        artifacts := s.artifacts ++
          [filepath.Join [s.Dir,
            if strings.HasSuffix (Sprintf06d (wrapInt (s.autoid + 1))) ext
            then Sprintf06d (wrapInt (s.autoid + 1))
            else Sprintf06d (wrapInt (s.autoid + 1)) ++ ext]] } := by
  rw [Save_store]
  simp

theorem NewStorage_ok (os : OS) (basedir scriptPath : String) (timestamp : Time)
    (s : Storage) (h : NewStorage os basedir scriptPath timestamp = .ok s) :
    s.artifacts = [] ∧ s.guids = [] ∧ s.autoid = 0 ∧
    (filepath.IsAbs (newStorageDir basedir scriptPath timestamp) = true →
      s.Dir = newStorageDir basedir scriptPath timestamp) ∧
    (filepath.IsAbs (newStorageDir basedir scriptPath timestamp) = false →
      ∃ cwd, os.Getwd = .ok cwd ∧
        s.Dir = filepath.Join [cwd, newStorageDir basedir scriptPath timestamp]) := by
  simp only [NewStorage] at h
  by_cases habs : filepath.IsAbs (newStorageDir basedir scriptPath timestamp) = true
  · simp only [habs, Bool.not_true, Bool.false_eq_true, if_false] at h
    cases h
    simp [habs]
  · simp only [Bool.not_eq_true] at habs
    simp only [habs, Bool.not_false, if_true] at h
    cases hg : os.Getwd with
    | error err => simp [hg] at h
    | ok cwd =>
      simp only [hg] at h
      cases h
      simp [habs]

/-! ## The artifact store: `Save` -/

/-- C1: `Save(name, ext, data)` appends exactly one path to the artifact list,
`filepath.Join(Dir, final)`, where the base is `name` if it is non-empty and
otherwise `%06d` of the incremented counter, and `final` is the base if it
already ends with `ext` and otherwise the base followed by `ext`; the counter
is incremented exactly when `name` is empty. While the counter stays below
`2 ^ 63 - 1` the increment is the mathematical `k + 1`, and below `999999` the
registered name is the one the specification words describe, with exactly six
decimal digits. On a store just built by `NewStorage` three saves without a
name register `000001.jpg`, `000002.jpg`, `000003.jpg` under `Dir` in that
order, and both `shot` and `shot.jpg` register `shot.jpg` under `Dir`. -/
theorem C1_Save_appends_one_joined_path (os : OS) (s : Storage) (name ext : String)
    (data : List (Fin 256)) :
    ((s.Save os name ext data).store.artifacts =
        s.artifacts ++ [filepath.Join [s.Dir,
          if strings.HasSuffix (if name = "" then Sprintf06d (wrapInt (s.autoid + 1)) else name) ext
          then (if name = "" then Sprintf06d (wrapInt (s.autoid + 1)) else name)
          else (if name = "" then Sprintf06d (wrapInt (s.autoid + 1)) else name) ++ ext]]) ∧
    ((s.Save os name ext data).store.autoid =
        if name = "" then wrapInt (s.autoid + 1) else s.autoid) ∧
    (0 ≤ s.autoid → s.autoid + 1 < 2 ^ 63 →
        (s.Save os name ext data).store.autoid = if name = "" then s.autoid + 1 else s.autoid) ∧
    (0 ≤ s.autoid → s.autoid + 1 < 1000000 →
        (s.Save os name ext data).store.artifacts =
          s.artifacts ++ [filepath.Join [s.Dir, specSaveName s.autoid name ext]]) ∧
    (∀ (env os1 os2 os3 : OS) (basedir scriptPath : String) (timestamp : Time)
        (fresh : Storage) (d1 d2 d3 : List (Fin 256)),
        NewStorage env basedir scriptPath timestamp = .ok fresh →
        (((fresh.Save os1 "" ".jpg" d1).store.Save os2 "" ".jpg" d2).store.Save
            os3 "" ".jpg" d3).store.artifacts =
          [filepath.Join [fresh.Dir, "000001.jpg"], filepath.Join [fresh.Dir, "000002.jpg"],
           filepath.Join [fresh.Dir, "000003.jpg"]]) ∧
    ((s.Save os "shot" ".jpg" data).store.artifacts =
        s.artifacts ++ [filepath.Join [s.Dir, "shot.jpg"]]) ∧
    ((s.Save os "shot.jpg" ".jpg" data).store.artifacts =
        s.artifacts ++ [filepath.Join [s.Dir, "shot.jpg"]]) := by
  refine ⟨?_, ?_, ?_, ?_, ?_, ?_, ?_⟩
  · rw [Save_store]
  · rw [Save_store]
  · intro h0 h1
    rw [Save_store, wrapInt_inRange _ (by omega) h1]
  · intro h0 h1
    rw [Save_store, wrapInt_inRange _ (by omega) (by omega)]
    obtain ⟨n, hn⟩ : ∃ n : Nat, s.autoid + 1 = (n : Int) := ⟨(s.autoid + 1).toNat, by omega⟩
    have hlt : n < 1000000 := by omega
    simp only [specSaveName, hn, Int.toNat_ofNat, Sprintf06d_sixDigit n hlt, strings.HasSuffix]
    by_cases hname : name = "" <;> simp [hname]
  · intro env os1 os2 os3 basedir scriptPath timestamp fresh d1 d2 d3 hnew
    obtain ⟨ha, _, hk, _⟩ := NewStorage_ok env basedir scriptPath timestamp fresh hnew
    have w1 : wrapInt 1 = 1 := by decide
    have w2 : wrapInt 2 = 2 := by decide
    have w3 : wrapInt 3 = 3 := by decide
    have e1 : Sprintf06d 1 = "000001" := by decide
    have e2 : Sprintf06d 2 = "000002" := by decide
    have e3 : Sprintf06d 3 = "000003" := by decide
    have f1 : strings.HasSuffix "000001" ".jpg" = false := by decide
    have f2 : strings.HasSuffix "000002" ".jpg" = false := by decide
    have f3 : strings.HasSuffix "000003" ".jpg" = false := by decide
    have g1 : ("000001" : String) ++ ".jpg" = "000001.jpg" := by decide
    have g2 : ("000002" : String) ++ ".jpg" = "000002.jpg" := by decide
    have g3 : ("000003" : String) ++ ".jpg" = "000003.jpg" := by decide
    simp [Save_fresh, ha, hk, w1, w2, w3, e1, e2, e3, f1, f2, f3, g1, g2, g3]
  · have f : strings.HasSuffix "shot" ".jpg" = false := by decide
    have g : ("shot" : String) ++ ".jpg" = "shot.jpg" := by decide
    have n : ¬ ("shot" : String) = "" := by decide
    rw [Save_store]
    simp [f, g, n]
  · have f : strings.HasSuffix "shot.jpg" ".jpg" = true := by decide
    have n : ¬ ("shot.jpg" : String) = "" := by decide
    rw [Save_store]
    simp [f, n]

/-- C1, at a concrete store: the counter `0` is in both ranges, the first save
without a name registers `000001.jpg` under the directory and leaves the
counter at `1`, and the store `NewStorage` builds for `login.lua` registers the
three numbered names in order. -/
theorem C1_Save_appends_one_joined_path_witness :
    ((0 : Int) ≤ store0.autoid ∧ store0.autoid + 1 < 1000000 ∧ store0.autoid + 1 < 2 ^ 63) ∧
    (store0.Save osAllOk "" ".jpg" []).store.autoid = 1 ∧
    (store0.Save osAllOk "" ".jpg" []).store.artifacts =
      ["/var/out/login/20240102T030405/000001.jpg"] ∧
    (((store0.Save osAllOk "" ".jpg" []).store.Save osAllFail "" ".jpg" []).store.Save
        osMkdirDenied "" ".jpg" []).store.artifacts =
      ["/var/out/login/20240102T030405/000001.jpg",
       "/var/out/login/20240102T030405/000002.jpg",
       "/var/out/login/20240102T030405/000003.jpg"] :=
  ⟨⟨by decide, by decide, by decide⟩,
   ((C1_Save_appends_one_joined_path osAllOk store0 "" ".jpg" []).2.2.1
      (by decide) (by decide)).trans (by decide),
   ((C1_Save_appends_one_joined_path osAllOk store0 "" ".jpg" []).2.2.2.1
      (by decide) (by decide)).trans (by decide),
   ((C1_Save_appends_one_joined_path osAllOk store0 "" ".jpg" []).2.2.2.2.1
      osAllOk osAllOk osAllFail osMkdirDenied "/var/out" "login.lua" ⟨2024, 1, 2, 3, 4, 5⟩
      store0 [] [] [] rfl).trans (by decide)⟩

/-! ## The artifact store: downloads -/

theorem CompleteDownload_absent (s : Storage) (guid : String) (h : mapGet s.guids guid = none) :
    s.CompleteDownload guid = (s, "") := by
  simp [Storage.CompleteDownload, h]

theorem CompleteDownload_pending (s : Storage) (guid name : String)
    (h : mapGet s.guids guid = some name) :
    s.CompleteDownload guid =
      ({ s with artifacts := s.artifacts ++ [filepath.Join [s.Dir, name]]
                guids := mapDelete s.guids guid }, filepath.Join [s.Dir, name]) := by
  simp [Storage.CompleteDownload, h]

/-- C2: after `StartDownload(id, name)`, `CompleteDownload(id)` returns
`filepath.Join(Dir, name)`, appends exactly that path once at the end of the
artifact list, and removes `id` from the pending downloads, leaving the other
pending entries, `Dir` and the counter as they were; a second
`CompleteDownload(id)` right after returns the empty string and leaves the
whole store, the artifact list included, unchanged. On any store,
`CompleteDownload` of an identifier that is not pending returns the empty
string and changes nothing. -/
theorem C2_CompleteDownload_registers_once (s : Storage) (id name : String) :
    ((s.StartDownload id name).CompleteDownload id).2 = filepath.Join [s.Dir, name] ∧
    ((s.StartDownload id name).CompleteDownload id).1.artifacts =
      s.artifacts ++ [filepath.Join [s.Dir, name]] ∧
    mapGet ((s.StartDownload id name).CompleteDownload id).1.guids id = none ∧
    (∀ g, g ≠ id →
      mapGet ((s.StartDownload id name).CompleteDownload id).1.guids g = mapGet s.guids g) ∧
    ((s.StartDownload id name).CompleteDownload id).1.Dir = s.Dir ∧
    ((s.StartDownload id name).CompleteDownload id).1.autoid = s.autoid ∧
    (((s.StartDownload id name).CompleteDownload id).1.CompleteDownload id).2 = "" ∧
    (((s.StartDownload id name).CompleteDownload id).1.CompleteDownload id).1 =
      ((s.StartDownload id name).CompleteDownload id).1 ∧
    (((s.StartDownload id name).CompleteDownload id).1.CompleteDownload id).1.artifacts =
      s.artifacts ++ [filepath.Join [s.Dir, name]] ∧
    (mapGet s.guids id = none → s.CompleteDownload id = (s, "")) := by
  have hget : mapGet (s.StartDownload id name).guids id = some name := by
    simp [Storage.StartDownload, mapGet_mapSet_self]
  have h1 := CompleteDownload_pending (s.StartDownload id name) id name hget
  have hgone : mapGet ((s.StartDownload id name).CompleteDownload id).1.guids id = none := by
    rw [h1]
    exact mapGet_mapDelete_self _ _
  have h2 := CompleteDownload_absent _ id hgone
  refine ⟨?_, ?_, hgone, ?_, ?_, ?_, ?_, ?_, ?_, ?_⟩
  · rw [h1]; rfl
  · rw [h1]; rfl
  · intro g hg
    rw [h1]
    show mapGet (mapDelete (mapSet s.guids id name) id) g = mapGet s.guids g
    rw [mapGet_mapDelete_other _ _ _ hg, mapGet_mapSet_other _ _ _ _ hg]
  · rw [h1]; rfl
  · rw [h1]; rfl
  · rw [h2]
  · rw [h2]
  · rw [h2, h1]; rfl
  · exact CompleteDownload_absent s id

/-- C2, at a concrete store: `g1` is not pending on the fresh store, so
completing it there returns the empty string and leaves the store as it is;
after `StartDownload("g1", "report.csv")` the completion returns the path of
`report.csv` under the directory. -/
theorem C2_CompleteDownload_registers_once_witness :
    mapGet store0.guids "g1" = none ∧
    store0.CompleteDownload "g1" = (store0, "") ∧
    ((store0.StartDownload "g1" "report.csv").CompleteDownload "g1").2 =
      "/var/out/login/20240102T030405/report.csv" :=
  ⟨by decide,
   (C2_CompleteDownload_registers_once store0 "g1" "report.csv").2.2.2.2.2.2.2.2.2 (by decide),
   (C2_CompleteDownload_registers_once store0 "g1" "report.csv").1.trans (by decide)⟩

/-- C3: `CancelDownload(id)`, whether or not `id` is pending, leaves the
artifact list, the counter, `Dir` and every other pending entry unchanged, and
afterwards `id` is not pending: a `CompleteDownload(id)` that follows returns
the empty string and leaves the store unchanged. `StartDownload(id, name)`,
`CancelDownload(id)`, `CompleteDownload(id)` in a row leave `Artifacts()` as it
was before, and `CancelDownload` of an identifier that is not pending leaves
the whole store unchanged. -/
theorem C3_CancelDownload_forgets_id (s : Storage) (id name : String) :
    (s.CancelDownload id).artifacts = s.artifacts ∧
    (s.CancelDownload id).autoid = s.autoid ∧
    (s.CancelDownload id).Dir = s.Dir ∧
    (∀ g, g ≠ id → mapGet (s.CancelDownload id).guids g = mapGet s.guids g) ∧
    mapGet (s.CancelDownload id).guids id = none ∧
    (s.CancelDownload id).CompleteDownload id = (s.CancelDownload id, "") ∧
    (((s.StartDownload id name).CancelDownload id).CompleteDownload id).2 = "" ∧
    (((s.StartDownload id name).CancelDownload id).CompleteDownload id).1.Artifacts =
      s.Artifacts ∧
    (mapGet s.guids id = none → s.CancelDownload id = s) := by
  have hgone : ∀ t : Storage, mapGet (t.CancelDownload id).guids id = none :=
    fun t => mapGet_mapDelete_self _ _
  refine ⟨rfl, rfl, rfl, ?_, hgone s, CompleteDownload_absent _ id (hgone s), ?_, ?_, ?_⟩
  · intro g hg
    exact mapGet_mapDelete_other _ _ _ hg
  · rw [CompleteDownload_absent _ id (hgone _)]
  · rw [CompleteDownload_absent _ id (hgone _)]
    rfl
  · intro h
    show ({ s with guids := mapDelete s.guids id } : Storage) = s
    rw [mapDelete_absent _ _ h]

/-- C3, at a concrete store: `g2` is not pending on the fresh store and
cancelling it there changes nothing. -/
theorem C3_CancelDownload_forgets_id_witness :
    mapGet store0.guids "g2" = none ∧ store0.CancelDownload "g2" = store0 ∧
    (((store0.StartDownload "g2" "x").CancelDownload "g2").CompleteDownload "g2").2 = "" :=
  ⟨by decide,
   (C3_CancelDownload_forgets_id store0 "g2" "x").2.2.2.2.2.2.2.2 (by decide),
   (C3_CancelDownload_forgets_id store0 "g2" "x").2.2.2.2.2.2.1⟩

/-! ## The artifact store: registration and file-system errors -/

theorem Open_effects (os : OS) (s : Storage) (name : String) :
    ∃ rest, (s.Open os name).effects = .register (filepath.Join [s.Dir, name]) :: rest ∧
      ∀ e ∈ rest, e.isOsCall = true := by
  simp only [Storage.Open]
  split
  · split
    · exact ⟨_, rfl, by simp [Effect.isOsCall]⟩
    · exact ⟨_, rfl, by simp [Effect.isOsCall]⟩
  · exact ⟨_, rfl, by simp [Effect.isOsCall]⟩

theorem Save_effects (os : OS) (s : Storage) (name ext : String) (data : List (Fin 256)) :
    ∃ p rest, (s.Save os name ext data).effects = .register p :: rest ∧
      (s.Save os name ext data).store.artifacts = s.artifacts ++ [p] ∧
      ∀ e ∈ rest, e.isOsCall = true := by
  simp only [Storage.Save]
  split
  · split
    · exact ⟨_, _, rfl, rfl, by simp [Effect.isOsCall]⟩
    · exact ⟨_, _, rfl, rfl, by simp [Effect.isOsCall]⟩
  · exact ⟨_, _, rfl, rfl, by simp [Effect.isOsCall]⟩

/-- C4: whatever the calls into the operating system return, `Open(name)`
appends `filepath.Join(Dir, name)` to the artifact list and `Save(name, ext,
data)` appends the path it computed; the registration is the first effect of
either method and everything after it is a call into package `os`. The runs
that return an error are among them: on an operating system where every call
fails, `Open` and `Save` return the error and the path is in the list. -/
theorem C4_registration_precedes_io (os : OS) (s : Storage) (name ext : String)
    (data : List (Fin 256)) :
    (s.Open os name).store.artifacts = s.artifacts ++ [filepath.Join [s.Dir, name]] ∧
    (∃ rest, (s.Open os name).effects = .register (filepath.Join [s.Dir, name]) :: rest ∧
      ∀ e ∈ rest, e.isOsCall = true) ∧
    ((s.Save os name ext data).store.artifacts =
        s.artifacts ++ [filepath.Join [s.Dir,
          if strings.HasSuffix (if name = "" then Sprintf06d (wrapInt (s.autoid + 1)) else name) ext
          then (if name = "" then Sprintf06d (wrapInt (s.autoid + 1)) else name)
          else (if name = "" then Sprintf06d (wrapInt (s.autoid + 1)) else name) ++ ext]]) ∧
    (∃ p rest, (s.Save os name ext data).effects = .register p :: rest ∧
      (s.Save os name ext data).store.artifacts = s.artifacts ++ [p] ∧
      ∀ e ∈ rest, e.isOsCall = true) ∧
    ((store0.Open osAllFail "log.txt").ret = .error errPermission ∧
      (store0.Open osAllFail "log.txt").store.artifacts =
        ["/var/out/login/20240102T030405/log.txt"]) ∧
    ((store0.Save osAllFail "shot" ".jpg" []).ret = some errPermission ∧
      (store0.Save osAllFail "shot" ".jpg" []).store.artifacts =
        ["/var/out/login/20240102T030405/shot.jpg"]) := by
  refine ⟨?_, Open_effects os s name, ?_, Save_effects os s name ext data, ?_, ?_⟩
  · rw [Open_store]
  · rw [Save_store]
  · exact ⟨rfl, by decide⟩
  · exact ⟨rfl, by decide⟩

/-- What `Save` returns: the `MkdirAll` error when it is `os.ErrExist`, and
otherwise, whether `MkdirAll` failed or not, whatever `WriteFile` returns. -/
theorem Save_ret (os : OS) (s : Storage) (name ext : String) (data : List (Fin 256)) :
    ∃ p, (s.Save os name ext data).store.artifacts = s.artifacts ++ [p] ∧
      (s.Save os name ext data).ret =
        match os.MkdirAll (filepath.Dir p) 0o750 with
        | some err => if err.isExist then some err else os.WriteFile p data 0o644
        | none => os.WriteFile p data 0o644 := by
  simp only [Storage.Save]
  split
  · rename_i err herr
    split
    · rename_i hex
      refine ⟨_, rfl, ?_⟩
      rw [herr]
      simp only [hex, if_true]
    · rename_i hex
      refine ⟨_, rfl, ?_⟩
      rw [herr]
      simp only [hex]
      rfl
  · rename_i herr
    refine ⟨_, rfl, ?_⟩
    rw [herr]

/-- What `Open` returns: the `MkdirAll` error when it is `os.ErrExist`, and
otherwise, whether `MkdirAll` failed or not, whatever `OpenFile` returns. -/
theorem Open_ret (os : OS) (s : Storage) (name : String) :
    (s.Open os name).ret =
      match os.MkdirAll (filepath.Dir (filepath.Join [s.Dir, name])) 0o750 with
      | some err =>
        if err.isExist then .error err
        else os.OpenFile (filepath.Join [s.Dir, name]) (O_CREATE ||| O_APPEND ||| O_WRONLY) 0o640
      | none =>
        os.OpenFile (filepath.Join [s.Dir, name]) (O_CREATE ||| O_APPEND ||| O_WRONLY) 0o640 := by
  simp only [Storage.Open]
  split
  · rename_i err herr
    split
    · rename_i hex
      simp only [hex, if_true]
    · rename_i hex
      simp only [hex]
  · rfl

/-- A `MkdirAll` error that is `os.ErrExist` is the one error of `MkdirAll` that
`Save` returns. -/
theorem test_Save_returns_ErrExist :
    (store0.Save { osAllOk with MkdirAll := fun _ _ => some errExist } "shot" ".jpg" []).ret =
      some errExist := rfl

/-- C5, the code at the failing input: `MkdirAll` fails with `permission
denied`, which is not `os.ErrExist`, so the guard
`err != nil && errors.Is(err, os.ErrExist)` is false, the error is dropped and
the method goes on; the write (or open) succeeds and `Save` returns `nil`
(`Open` returns the file with a `nil` error). -/
theorem C5_mkdir_error_dropped :
    osMkdirDenied.MkdirAll (filepath.Dir "/var/out/login/20240102T030405/shot.jpg") 0o750 =
      some errPermission ∧
    (store0.Save osMkdirDenied "shot" ".jpg" []).effects =
      [.register "/var/out/login/20240102T030405/shot.jpg",
       .mkdirAll "/var/out/login/20240102T030405" 0o750,
       .writeFile "/var/out/login/20240102T030405/shot.jpg" [] 0o644] ∧
    (store0.Save osMkdirDenied "shot" ".jpg" []).ret = none ∧
    osMkdirDenied.MkdirAll (filepath.Dir "/var/out/login/20240102T030405/log.txt") 0o750 =
      some errPermission ∧
    (store0.Open osMkdirDenied "log.txt").ret =
      .ok { name := "/var/out/login/20240102T030405/log.txt" } := by
  refine ⟨rfl, by decide, rfl, rfl, rfl⟩

/-! ## The artifact store: invariants -/

/-- C10: every operation of the store leaves the old artifact list as a prefix
of the new one and appends at most one entry, and leaves `Dir` unchanged;
`Artifacts()` returns the current artifact list, element for element in
registration order, and does not change the store. -/
theorem C10_store_invariants (os : OS) (s : Storage) (op : StorageOp) :
    s.artifacts <+: (s.step os op).artifacts ∧
    ((s.step os op).artifacts = s.artifacts ∨
      ∃ p, (s.step os op).artifacts = s.artifacts ++ [p]) ∧
    (s.step os op).artifacts.length ≤ s.artifacts.length + 1 ∧
    (s.step os op).Dir = s.Dir ∧
    s.Artifacts = s.artifacts ∧
    s.step os .Artifacts = s := by
  have key : (s.step os op).Dir = s.Dir ∧
      ((s.step os op).artifacts = s.artifacts ∨
        ∃ p, (s.step os op).artifacts = s.artifacts ++ [p]) := by
    cases op with
    | Open name =>
      have h := Open_store os s name
      exact ⟨(congrArg Storage.Dir h : _), Or.inr ⟨_, (congrArg Storage.artifacts h : _)⟩⟩
    | Save name ext data =>
      have h := Save_store os s name ext data
      exact ⟨(congrArg Storage.Dir h : _), Or.inr ⟨_, (congrArg Storage.artifacts h : _)⟩⟩
    | StartDownload guid name => exact ⟨rfl, Or.inl rfl⟩
    | CancelDownload guid => exact ⟨rfl, Or.inl rfl⟩
    | CompleteDownload guid =>
      simp only [Storage.step]
      cases h : mapGet s.guids guid with
      | none =>
        rw [CompleteDownload_absent s guid h]
        exact ⟨rfl, Or.inl rfl⟩
      | some name =>
        rw [CompleteDownload_pending s guid name h]
        exact ⟨rfl, Or.inr ⟨_, rfl⟩⟩
    | Artifacts => exact ⟨rfl, Or.inl rfl⟩
  obtain ⟨hdir, hart⟩ := key
  refine ⟨?_, hart, ?_, hdir, ?_, rfl⟩
  · rcases hart with h | ⟨p, h⟩
    · rw [h]
    · rw [h]
      exact List.prefix_append _ _
  · rcases hart with h | ⟨p, h⟩
    · rw [h]
      omega
    · rw [h]
      simp
  · simp [Storage.Artifacts]

/-! ## Lemmas on `path/filepath` -/

theorem backtrack_keeps_root : ∀ (out : List Char), (∃ pre, out = pre ++ ['/']) →
    1 < out.length → ∃ pre, backtrack 1 out = pre ++ ['/'] := by
  intro out
  induction out with
  | nil => intro _ h; simp at h
  | cons c rest ih =>
    intro hroot hlen
    obtain ⟨pre, hpre⟩ := hroot
    have hrest : ∃ pre1, rest = pre1 ++ ['/'] := by
      cases pre with
      | nil =>
        simp at hpre
        obtain ⟨_, hr⟩ := hpre
        subst hr
        simp at hlen
      | cons d pre1 =>
        simp at hpre
        exact ⟨pre1, hpre.2⟩
    simp only [backtrack]
    split
    · rename_i hc
      simp only [Bool.and_eq_true, decide_eq_true_eq] at hc
      exact ih hrest hc.1
    · exact hrest

theorem cleanStep_keeps_root (st : List Char × Nat) (el : List Char)
    (hroot : ∃ pre, st.1 = pre ++ ['/']) (hdd : st.2 = 1) :
    (∃ pre, (cleanStep true st el).1 = pre ++ ['/']) ∧ (cleanStep true st el).2 = 1 := by
  obtain ⟨pre, hpre⟩ := hroot
  simp only [cleanStep]
  split
  · exact ⟨⟨pre, hpre⟩, hdd⟩
  split
  · exact ⟨⟨pre, hpre⟩, hdd⟩
  split
  · split
    · rename_i hlen
      rw [hdd] at hlen ⊢
      exact ⟨backtrack_keeps_root _ ⟨pre, hpre⟩ hlen, rfl⟩
    · simp only [Bool.not_true, Bool.false_eq_true, if_false]
      exact ⟨⟨pre, hpre⟩, hdd⟩
  · refine ⟨?_, hdd⟩
    split
    · exact ⟨el.reverse ++ '/' :: pre, by simp [hpre]⟩
    · exact ⟨el.reverse ++ pre, by simp [hpre]⟩

theorem foldl_cleanStep_keeps_root (els : List (List Char)) :
    ∀ (st : List Char × Nat), (∃ pre, st.1 = pre ++ ['/']) → st.2 = 1 →
      ∃ pre, (els.foldl (cleanStep true) st).1 = pre ++ ['/'] := by
  induction els with
  | nil => intro st h _; exact h
  | cons el els ih =>
    intro st h hdd
    obtain ⟨h1, h2⟩ := cleanStep_keeps_root st el h hdd
    exact ih _ h1 h2

theorem cleanChars_rooted (rest : List Char) :
    ∃ tl, cleanChars ('/' :: rest) = '/' :: tl := by
  obtain ⟨pre, hpre⟩ :=
    foldl_cleanStep_keeps_root (splitSep ('/' :: rest)) (['/'], 1) ⟨[], rfl⟩ rfl
  simp only [cleanChars, List.headD, isPathSeparator, beq_self_eq_true, if_true, hpre]
  simp

theorem IsAbs_iff (p : String) : filepath.IsAbs p = true ↔ ∃ tl, p.data = '/' :: tl := by
  unfold filepath.IsAbs
  cases h : p.data with
  | nil => simp [List.isPrefixOf]
  | cons c tl =>
    show List.isPrefixOf ['/'] (c :: tl) = true ↔ _
    simp [List.isPrefixOf]
    exact eq_comm

theorem Clean_rooted (p : String) (h : filepath.IsAbs p = true) :
    filepath.IsAbs (filepath.Clean p) = true := by
  obtain ⟨tl, htl⟩ := (IsAbs_iff p).1 h
  obtain ⟨tl1, h1⟩ := cleanChars_rooted tl
  rw [IsAbs_iff]
  exact ⟨tl1, by simp [filepath.Clean, htl, h1]⟩

theorem Join_rooted (cwd dir : String) (h : filepath.IsAbs cwd = true) :
    filepath.IsAbs (filepath.Join [cwd, dir]) = true := by
  obtain ⟨tl, htl⟩ := (IsAbs_iff cwd).1 h
  have hne : cwd ≠ "" := by
    intro e
    rw [e] at htl
    simp at htl
  simp only [filepath.Join, hne, if_false]
  apply Clean_rooted
  rw [IsAbs_iff]
  exact ⟨tl ++ "/".data ++ dir.data, by simp [joinSep, htl]⟩

theorem extScan_suffix : ∀ (rev acc : List Char),
    ∃ pre, rev.reverse ++ acc = pre ++ extScan rev acc := by
  intro rev
  induction rev with
  | nil => intro acc; exact ⟨acc, by simp [extScan]⟩
  | cons c rest ih =>
    intro acc
    simp only [extScan]
    split
    · exact ⟨(c :: rest).reverse ++ acc, by simp⟩
    split
    · rename_i hc
      exact ⟨rest.reverse, by simp [hc]⟩
    · obtain ⟨pre, hpre⟩ := ih (c :: acc)
      exact ⟨pre, by simpa using hpre⟩

/-- Cutting `len(name) - len(Ext(name))` bytes off the front of `name` leaves
the extension: the cut is the name with its extension removed. -/
theorem trimExt_append (name : String) :
    (⟨name.data.take (name.length - (filepath.Ext name).length)⟩ : String) ++ filepath.Ext name
      = name := by
  obtain ⟨pre, hpre⟩ := extScan_suffix name.data.reverse []
  simp only [List.reverse_reverse, List.append_nil] at hpre
  apply String.ext
  simp only [String.data_append, filepath.Ext, String.length]
  generalize extScan name.data.reverse [] = e at hpre ⊢
  rw [hpre]
  simp

/-! ## Lemmas on `time` -/

theorem appendInt_two (n : Nat) (h : n < 100) :
    appendInt (n : Int) 2 = [Nat.digitChar (n / 10 % 10), Nat.digitChar (n % 10)] := by
  have hneg : ¬ ((n : Int) < 0) := by omega
  have z : Nat.digitChar 0 = '0' := by decide
  simp only [appendInt, hneg, if_false, Int.natAbs_ofNat, decimal]
  by_cases h1 : n < 10
  · rw [decimalLoop_small _ _ _ h1]
    have e1 : n / 10 % 10 = 0 := by omega
    have e2 : n % 10 = n := by omega
    simp [e1, e2, List.replicate, z]
  · rw [decimalLoop_step 18 _ _ (by omega), decimalLoop_small _ _ _ (by omega)]
    have e1 : n / 10 % 10 = n / 10 := by omega
    simp [e1, List.replicate]

theorem appendInt_four (n : Nat) (h : n < 10000) :
    appendInt (n : Int) 4 =
      [Nat.digitChar (n / 1000 % 10), Nat.digitChar (n / 100 % 10),
       Nat.digitChar (n / 10 % 10), Nat.digitChar (n % 10)] := by
  have hneg : ¬ ((n : Int) < 0) := by omega
  have z : Nat.digitChar 0 = '0' := by decide
  simp only [appendInt, hneg, if_false, Int.natAbs_ofNat, decimal]
  by_cases h1 : n < 10
  · rw [decimalLoop_small _ _ _ h1]
    have e1 : n / 1000 % 10 = 0 := by omega
    have e2 : n / 100 % 10 = 0 := by omega
    have e3 : n / 10 % 10 = 0 := by omega
    have e4 : n % 10 = n := by omega
    simp [e1, e2, e3, e4, List.replicate, z]
  by_cases h2 : n < 100
  · rw [decimalLoop_step 18 _ _ (by omega), decimalLoop_small _ _ _ (by omega)]
    have e1 : n / 1000 % 10 = 0 := by omega
    have e2 : n / 100 % 10 = 0 := by omega
    have e3 : n / 10 % 10 = n / 10 := by omega
    simp [e1, e2, e3, List.replicate, z]
  by_cases h3 : n < 1000
  · rw [decimalLoop_step 18 _ _ (by omega), decimalLoop_step 17 _ _ (by omega),
      decimalLoop_small _ _ _ (by omega)]
    have e1 : n / 1000 % 10 = 0 := by omega
    have e2 : n / 100 % 10 = n / 10 / 10 := by omega
    simp [e1, e2, List.replicate, z]
  · rw [decimalLoop_step 18 _ _ (by omega), decimalLoop_step 17 _ _ (by omega),
      decimalLoop_step 16 _ _ (by omega), decimalLoop_small _ _ _ (by omega)]
    have e1 : n / 1000 % 10 = n / 10 / 10 / 10 := by omega
    have e2 : n / 100 % 10 = n / 10 / 10 % 10 := by omega
    simp [e1, e2, List.replicate]

/-- For a year of four digits the layout `20060102T150405` gives the
fixed-width stamp. -/
theorem Format_specStamp (t : Time) (h0 : 0 ≤ t.year) (h1 : t.year ≤ 9999) (hr : t.inRange) :
    t.Format = specStamp t := by
  obtain ⟨_, hm, _, hd, hh, hmi, hs⟩ := hr
  obtain ⟨y, hy⟩ : ∃ y : Nat, t.year = (y : Int) := ⟨t.year.toNat, by omega⟩
  have hy4 : y < 10000 := by omega
  simp only [Time.Format, specStamp, hy, Int.toNat_ofNat, appendInt_four y hy4,
    appendInt_two t.month (by omega), appendInt_two t.day (by omega),
    appendInt_two t.hour (by omega), appendInt_two t.minute (by omega),
    appendInt_two t.second (by omega)]
  rfl

/-! ## The artifact store: construction -/

/-- C6: when `NewStorage` succeeds, `Dir` is `filepath.Join(root, stem, stamp)`
made absolute: `root` is `basedir` if that is non-empty and otherwise
`filepath.Dir(scriptPath)`, `stem` is the base name of `scriptPath` with its
extension removed (the base name is `stem` followed by its extension), and
`stamp` is the start time in the layout `20060102T150405`, which for a year of
four digits is the fixed-width `YYYYMMDDTHHMMSS`. The joined path is taken as
it is when it is absolute, and joined onto the working directory exactly when
it is relative; with the rooted working directory `os.Getwd` promises, `Dir` is
absolute. The new store has no artifacts, no pending downloads and counter 0. -/
theorem C6_NewStorage_dir (os : OS) (basedir scriptPath : String) (timestamp : Time)
    (s : Storage) (h : NewStorage os basedir scriptPath timestamp = .ok s) :
    ∃ stem joined : String,
      filepath.Base scriptPath = stem ++ filepath.Ext (filepath.Base scriptPath) ∧
      joined = filepath.Join
        [if basedir = "" then filepath.Dir scriptPath else basedir, stem, timestamp.Format] ∧
      (filepath.IsAbs joined = true → s.Dir = joined) ∧
      (filepath.IsAbs joined = false →
        ∃ cwd, os.Getwd = .ok cwd ∧ s.Dir = filepath.Join [cwd, joined]) ∧
      ((∀ cwd, os.Getwd = .ok cwd → filepath.IsAbs cwd = true) → filepath.IsAbs s.Dir = true) ∧
      (0 ≤ timestamp.year → timestamp.year ≤ 9999 → timestamp.inRange →
        timestamp.Format = specStamp timestamp ∧ timestamp.Format.length = 15) ∧
      s.artifacts = [] ∧ s.guids = [] ∧ s.autoid = 0 := by
  obtain ⟨ha, hg, hk, habs, hrel⟩ := NewStorage_ok os basedir scriptPath timestamp s h
  refine ⟨⟨(filepath.Base scriptPath).data.take
      ((filepath.Base scriptPath).length - (filepath.Ext (filepath.Base scriptPath)).length)⟩,
    newStorageDir basedir scriptPath timestamp, (trimExt_append _).symm, rfl, habs, hrel,
    ?_, ?_, ha, hg, hk⟩
  · intro hcwd
    cases hj : filepath.IsAbs (newStorageDir basedir scriptPath timestamp) with
    | true => rw [habs hj]; exact hj
    | false =>
      obtain ⟨cwd, hc, hd⟩ := hrel hj
      rw [hd]
      exact Join_rooted cwd _ (hcwd cwd hc)
  · intro h0 h1 hr
    have hf := Format_specStamp timestamp h0 h1 hr
    exact ⟨hf, by rw [hf]; rfl⟩

/-- C6, at concrete inputs: with an absolute `basedir` the directory is the
joined path itself; with no `basedir` and a relative script path it is joined
onto the working directory; both are absolute and the stamp has fifteen
bytes. -/
theorem C6_NewStorage_dir_witness :
    NewStorage osAllOk "/var/out" "login.lua" time0 = .ok store0 ∧
    filepath.IsAbs store0.Dir = true ∧
    time0.Format = "20240102T030405" ∧ time0.Format.length = 15 ∧
    NewStorage osAllOk "" "scenarios/login.lua" time0 =
      .ok { Dir := "/home/ayd/scenarios/login/20240102T030405",
            artifacts := [], guids := [], autoid := 0 } := by
  obtain ⟨stem, joined, _, _, _, _, habs, hfmt, _⟩ :=
    C6_NewStorage_dir osAllOk "/var/out" "login.lua" time0 store0 rfl
  have hf := hfmt (by decide) (by decide) (by decide)
  refine ⟨rfl, habs ?_, hf.1.trans (by decide), hf.2, rfl⟩
  intro cwd hc
  cases hc
  decide

/-! ## Element handles: selection -/

theorem selectAllLoop_ok (b : Browser) (e : Element) (query : String)
    (nodeOf : NodeID → Node) (found : String → Node → List NodeID) :
    ∀ (ids : List NodeID) (es : ElementsArray),
      (∀ id ∈ ids, b.RunSelectorNodeIDsAll e.tab query (nodeOf id) =
        .ok (found query (nodeOf id))) →
      selectAllLoop b e query (ids.map nodeOf) es =
        .ok (es ++ ids.flatMap (fun id =>
          (found query (nodeOf id)).map
            (fun m => ({ query := query, ids := [m], tab := e.tab } : Element)))) := by
  intro ids
  induction ids with
  | nil => intro es _; simp [selectAllLoop]
  | cons id ids ih =>
    intro es hM
    have h1 := hM id (List.mem_cons_self _ _)
    have h2 : ∀ i ∈ ids, b.RunSelectorNodeIDsAll e.tab query (nodeOf i) =
        .ok (found query (nodeOf i)) := fun i hi => hM i (List.mem_cons_of_mem _ hi)
    simp only [List.map_cons, selectAllLoop, h1]
    rw [ih _ h2]
    simp

/-- C7: let the run that materialises the nodes return one node per identifier
of the handle, in order, and let the optional resolution of `query` under a
node return the list `found query node`, which may be empty. Then `SelectAll`
returns, without error, the handles obtained by going through the identifiers
of the handle in their order and, for each, through its matches in the
returned order: one handle per match, each with exactly that one identifier,
the query `query` and the session of the handle; the length is the sum of the
match counts, and an identifier without matches contributes nothing. -/
theorem C7_SelectAll_flattens (b : Browser) (e : Element) (query : String)
    (nodeOf : NodeID → Node) (found : String → Node → List NodeID)
    (hN : b.RunSelectorNodes e.tab query e.ids = .ok (e.ids.map nodeOf))
    (hM : ∀ id ∈ e.ids, b.RunSelectorNodeIDsAll e.tab query (nodeOf id) =
      .ok (found query (nodeOf id))) :
    ∃ es : ElementsArray,
      e.SelectAll b query = .ok es ∧
      es = e.ids.flatMap (fun id =>
        (found query (nodeOf id)).map
          (fun m => ({ query := query, ids := [m], tab := e.tab } : Element))) ∧
      es.length = (e.ids.map (fun id => (found query (nodeOf id)).length)).sum ∧
      (∀ h ∈ es, h.ids.length = 1 ∧ h.query = query ∧ h.tab = e.tab) ∧
      es.map (fun h => h.ids) =
        (e.ids.flatMap (fun id => found query (nodeOf id))).map (fun m => [m]) ∧
      ((∀ id ∈ e.ids, found query (nodeOf id) = []) → es = []) := by
  refine ⟨_, ?_, rfl, ?_, ?_, ?_, ?_⟩
  · simp only [Element.SelectAll, hN]
    rw [selectAllLoop_ok b e query nodeOf found e.ids [] hM]
    simp
  · simp [List.flatMap_def, List.length_flatten, Function.comp_def]
  · intro h hh
    simp only [List.mem_flatMap, List.mem_map] at hh
    obtain ⟨id, _, m, _, rfl⟩ := hh
    exact ⟨rfl, rfl, rfl⟩
  · simp [List.flatMap_def, List.map_flatten, Function.comp_def]
  · intro hnone
    simp only [List.flatMap_def, List.flatten_eq_nil_iff, List.mem_map]
    rintro l ⟨id, hid, rfl⟩
    simp [hnone id hid]

/-- C7, on a page with two lists, of which the first has two items and the
second none: the handle on both lists fans out to the two items, in order. -/
theorem C7_SelectAll_flattens_witness :
    Element.SelectAll browserLists { query := "ul", ids := [10, 20], tab := 0 } "li" =
      .ok [{ query := "li", ids := [11], tab := 0 }, { query := "li", ids := [12], tab := 0 }] := by
  obtain ⟨es, hes, heq, _⟩ :=
    C7_SelectAll_flattens browserLists { query := "ul", ids := [10, 20], tab := 0 } "li"
      Node.mk (fun _ n => if n.NodeID = 10 then [11, 12] else []) rfl (fun _ _ => rfl)
  rw [hes, heq]
  rfl

/-- With at least one node materialised, `Select` resolves the query under the
first node only and returns the handle over the result, or the Lua error of
that run. -/
theorem Select_first_node (b : Browser) (e : Element) (query : String) (node0 : Node)
    (rest : List Node) (h : b.RunNodes e.tab e.ids = .ok (node0 :: rest)) :
    e.Select b query =
      match b.RunNodeIDsFrom e.tab query node0 with
      | .error msg => .error (.luaError msg)
      | .ok ids => .ok { query := query, ids := ids, tab := e.tab } := by
  simp [Element.Select, h]

/-- With no node materialised, `Select` stops at the index expression. -/
theorem Select_no_node (b : Browser) (e : Element) (query : String)
    (h : b.RunNodes e.tab e.ids = .ok []) :
    e.Select b query = .error (.indexOutOfRange 0 0) := by
  simp [Element.Select, h]

/-- When the run that materialises the nodes raises a Lua error, `Select` stops
with that error. -/
theorem Select_run_error (b : Browser) (e : Element) (query msg : String)
    (h : b.RunNodes e.tab e.ids = .error msg) :
    e.Select b query = .error (.luaError msg) := by
  simp [Element.Select, h]

/-- C9, the code at the failing input: the run that materialises the nodes
returns normally with an empty list, and the index expression `nodes[0]` of
`Select` stops with the run-time panic `index out of range [0] with length 0`,
for a handle without identifiers and for a handle with one. -/
theorem C9_Select_index_out_of_range :
    browserNothing.RunNodes 0 [] = .ok [] ∧
    Element.Select browserNothing { query := "ul", ids := [], tab := 0 } "li" =
      .error (.indexOutOfRange 0 0) ∧
    Element.Select browserNothing { query := "ul", ids := [10], tab := 0 } "li" =
      .error (.indexOutOfRange 0 0) ∧
    call browserNothing { query := "ul", ids := [], tab := 0 } "li" =
      .error (.indexOutOfRange 0 0) :=
  ⟨rfl, rfl, rfl, rfl⟩

/-! ## Element handles: member access -/

theorem specTier_reader (name : String) (h : specTier name = .reader) :
    name ∈ readerNames := by
  unfold specTier at h
  by_cases h1 : name ∈ readerNames
  · exact h1
  · by_cases h2 : name ∈ methodNames <;> simp [h1, h2] at h

theorem specTier_method (name : String) (h : specTier name = .method) :
    name ∉ readerNames ∧ name ∈ methodNames := by
  unfold specTier at h
  by_cases h1 : name ∈ readerNames
  · simp [h1] at h
  · by_cases h2 : name ∈ methodNames
    · exact ⟨h1, h2⟩
    · simp [h1, h2] at h

theorem specTier_attribute (name : String) (h : specTier name = .attribute) :
    name ∉ readerNames ∧ name ∉ methodNames := by
  unfold specTier at h
  by_cases h1 : name ∈ readerNames
  · simp [h1] at h
  · by_cases h2 : name ∈ methodNames
    · simp [h1, h2] at h
    · exact ⟨h1, h2⟩

theorem getters_lookup_none (name : String) (h : name ∉ readerNames) :
    getters.lookup name = none := by
  simp only [readerNames, List.mem_cons, List.mem_singleton, List.not_mem_nil, or_false,
    not_or] at h
  obtain ⟨h1, h2, h3, h4⟩ := h
  have b1 : (name == "text") = false := by simpa using h1
  have b2 : (name == "innerHTML") = false := by simpa using h2
  have b3 : (name == "outerHTML") = false := by simpa using h3
  have b4 : (name == "value") = false := by simpa using h4
  simp only [getters, List.lookup, b1, b2, b3, b4]

theorem methods_lookup_none (name : String) (h : name ∉ methodNames) :
    methods.lookup name = none := by
  simp only [methodNames, List.mem_cons, List.mem_singleton, List.not_mem_nil, or_false,
    not_or] at h
  obtain ⟨h1, h2, h3, h4, h5, h6, h7, h8⟩ := h
  have b1 : (name == "sendKeys") = false := by simpa using h1
  have b2 : (name == "setValue") = false := by simpa using h2
  have b3 : (name == "click") = false := by simpa using h3
  have b4 : (name == "submit") = false := by simpa using h4
  have b5 : (name == "focus") = false := by simpa using h5
  have b6 : (name == "blur") = false := by simpa using h6
  have b7 : (name == "screenshot") = false := by simpa using h7
  have b8 : (name == "all") = false := by simpa using h8
  simp only [methods, List.lookup, b1, b2, b3, b4, b5, b6, b7, b8]

/-- C8: member access on a handle answers in the first of three tiers that
knows the name. A name among the built-in readers runs its read at once (one
browser call) and, when the run succeeds, yields the one string read: `text`
yields what the run of `chromedp.Text` on the identifiers of the handle left,
`innerHTML` what `chromedp.InnerHTML` left, `outerHTML` what
`chromedp.OuterHTML` left and `value` what `chromedp.Value` left, each after
exactly that one browser call, and a run that raises a Lua error gives that
error. Any other name among the built-in methods yields the function registered under it
and makes no browser call. Every other name is read as an attribute: the value
is yielded when the attribute is present, and no value at all, without error,
when it is absent. The two vocabularies are the keys of the tables `getters`
and `methods` and share no name. -/
theorem C8_index_three_tiers (b : Browser) (e : Element) (name : String) :
    (specTier name = .reader →
      ∃ g, getters.lookup name = some g ∧ index b e name = g.call b e ∧
        (index b e name).calls.length = 1 ∧
        (∀ vs, (index b e name).ret = .ok vs → ∃ v, vs = [.LString v])) ∧
    (specTier name = .method →
      ∃ m, getters.lookup name = none ∧ methods.lookup name = some m ∧
        (index b e name).ret = .ok [.LFunction m] ∧ (index b e name).calls = []) ∧
    (specTier name = .attribute →
      getters.lookup name = none ∧ methods.lookup name = none ∧
      index b e name = e.GetAttribute b name ∧
      (index b e name).calls = [.AttributeValue e.ids name] ∧
      (∀ v, b.RunAttributeValue e.tab e.ids name = .ok (v, true) →
        (index b e name).ret = .ok [.LString v]) ∧
      (∀ v, b.RunAttributeValue e.tab e.ids name = .ok (v, false) →
        (index b e name).ret = .ok [])) ∧
    (index b e "text" = e.GetText b ∧ index b e "innerHTML" = e.GetInnerHTML b ∧
      index b e "outerHTML" = e.GetOuterHTML b ∧ index b e "value" = e.GetValue b) ∧
    ((index b e "text").calls = [.Text e.ids] ∧
      (∀ v, b.RunText e.tab e.ids = .ok v → (index b e "text").ret = .ok [.LString v]) ∧
      (∀ msg, b.RunText e.tab e.ids = .error msg → (index b e "text").ret = .error msg)) ∧
    ((index b e "innerHTML").calls = [.InnerHTML e.ids] ∧
      (∀ v, b.RunInnerHTML e.tab e.ids = .ok v →
        (index b e "innerHTML").ret = .ok [.LString v]) ∧
      (∀ msg, b.RunInnerHTML e.tab e.ids = .error msg →
        (index b e "innerHTML").ret = .error msg)) ∧
    ((index b e "outerHTML").calls = [.OuterHTML e.ids] ∧
      (∀ v, b.RunOuterHTML e.tab e.ids = .ok v →
        (index b e "outerHTML").ret = .ok [.LString v]) ∧
      (∀ msg, b.RunOuterHTML e.tab e.ids = .error msg →
        (index b e "outerHTML").ret = .error msg)) ∧
    ((index b e "value").calls = [.Value e.ids] ∧
      (∀ v, b.RunValue e.tab e.ids = .ok v → (index b e "value").ret = .ok [.LString v]) ∧
      (∀ msg, b.RunValue e.tab e.ids = .error msg → (index b e "value").ret = .error msg)) ∧
    (∀ msg, b.RunAttributeValue e.tab e.ids name = .error msg →
      specTier name = .attribute → (index b e name).ret = .error msg) ∧
    getters.map Prod.fst = readerNames ∧
    (∀ n, n ∈ methods.map Prod.fst ↔ n ∈ methodNames) ∧
    (∀ n, n ∈ readerNames → n ∉ methodNames) := by
  refine ⟨?_, ?_, ?_, ⟨rfl, rfl, rfl, rfl⟩, ?_, ?_, ?_, ?_, ?_, rfl, ?_, by decide⟩
  · intro h
    have hm := specTier_reader name h
    simp only [readerNames, List.mem_cons, List.mem_singleton, List.not_mem_nil, or_false] at hm
    have hstr : ∀ (r : Except String String) (vs : List LValue),
        pushString r = .ok vs → ∃ v, vs = [.LString v] := by
      intro r vs hr
      cases r with
      | error msg => simp [pushString] at hr
      | ok v => exact ⟨v, by simpa [pushString] using hr.symm⟩
    rcases hm with rfl | rfl | rfl | rfl
    · exact ⟨.GetText, rfl, rfl, rfl, fun vs hv => hstr _ vs hv⟩
    · exact ⟨.GetInnerHTML, rfl, rfl, rfl, fun vs hv => hstr _ vs hv⟩
    · exact ⟨.GetOuterHTML, rfl, rfl, rfl, fun vs hv => hstr _ vs hv⟩
    · exact ⟨.GetValue, rfl, rfl, rfl, fun vs hv => hstr _ vs hv⟩
  · intro h
    obtain ⟨hr, hm⟩ := specTier_method name h
    simp only [methodNames, List.mem_cons, List.mem_singleton, List.not_mem_nil, or_false] at hm
    rcases hm with rfl | rfl | rfl | rfl | rfl | rfl | rfl | rfl
    · exact ⟨.sendKeys, rfl, rfl, rfl, rfl⟩
    · exact ⟨.setValue, rfl, rfl, rfl, rfl⟩
    · exact ⟨.click, rfl, rfl, rfl, rfl⟩
    · exact ⟨.submit, rfl, rfl, rfl, rfl⟩
    · exact ⟨.focus, rfl, rfl, rfl, rfl⟩
    · exact ⟨.blur, rfl, rfl, rfl, rfl⟩
    · exact ⟨.screenshot, rfl, rfl, rfl, rfl⟩
    · exact ⟨.all, rfl, rfl, rfl, rfl⟩
  · intro h
    obtain ⟨hr, hm⟩ := specTier_attribute name h
    have hg := getters_lookup_none name hr
    have hl := methods_lookup_none name hm
    have hidx : index b e name = e.GetAttribute b name := by
      simp [index, hg, hl]
    refine ⟨hg, hl, hidx, ?_, ?_, ?_⟩
    · rw [hidx]; rfl
    · intro v hv
      rw [hidx]
      simp [Element.GetAttribute, hv]
    · intro v hv
      rw [hidx]
      simp [Element.GetAttribute, hv]
  · refine ⟨rfl, ?_, ?_⟩
    · intro v hv
      show (e.GetText b).ret = _
      simp [Element.GetText, pushString, hv]
    · intro msg hv
      show (e.GetText b).ret = _
      simp [Element.GetText, pushString, hv]
  · refine ⟨rfl, ?_, ?_⟩
    · intro v hv
      show (e.GetInnerHTML b).ret = _
      simp [Element.GetInnerHTML, pushString, hv]
    · intro msg hv
      show (e.GetInnerHTML b).ret = _
      simp [Element.GetInnerHTML, pushString, hv]
  · refine ⟨rfl, ?_, ?_⟩
    · intro v hv
      show (e.GetOuterHTML b).ret = _
      simp [Element.GetOuterHTML, pushString, hv]
    · intro msg hv
      show (e.GetOuterHTML b).ret = _
      simp [Element.GetOuterHTML, pushString, hv]
  · refine ⟨rfl, ?_, ?_⟩
    · intro v hv
      show (e.GetValue b).ret = _
      simp [Element.GetValue, pushString, hv]
    · intro msg hv
      show (e.GetValue b).ret = _
      simp [Element.GetValue, pushString, hv]
  · intro msg hv h
    obtain ⟨hr, hm⟩ := specTier_attribute name h
    have hidx : index b e name = e.GetAttribute b name := by
      simp [index, getters_lookup_none name hr, methods_lookup_none name hm]
    rw [hidx]
    simp [Element.GetAttribute, hv]
  · intro n
    simp only [methods, methodNames, List.map_cons, List.map_nil, List.mem_cons,
      List.mem_singleton, List.not_mem_nil, or_false]
    tauto

/-- C8, on a page whose list carries the attribute `id`: `text` is a reader,
`click` a method and `id`, `href` attributes; the four readers yield the four
different strings the browser holds for them, `click` makes no browser call,
the read of `id` yields its value and the read of the absent `href` yields no
value. -/
theorem C8_index_three_tiers_witness :
    specTier "text" = .reader ∧ specTier "click" = .method ∧ specTier "id" = .attribute ∧
    (index browserLists { query := "ul", ids := [10], tab := 0 } "click").calls = [] ∧
    (index browserLists { query := "ul", ids := [10], tab := 0 } "id").ret =
      .ok [.LString "menu"] ∧
    (index browserLists { query := "ul", ids := [10], tab := 0 } "href").ret = .ok [] ∧
    (index browserLists { query := "ul", ids := [10], tab := 0 } "text").calls.length = 1 ∧
    (index browserLists { query := "ul", ids := [10], tab := 0 } "text").ret =
      .ok [.LString "first"] ∧
    (index browserLists { query := "ul", ids := [10], tab := 0 } "innerHTML").ret =
      .ok [.LString "<li>first</li>"] ∧
    (index browserLists { query := "ul", ids := [10], tab := 0 } "outerHTML").ret =
      .ok [.LString "<ul><li>first</li></ul>"] ∧
    (index browserLists { query := "ul", ids := [10], tab := 0 } "value").ret =
      .ok [.LString "on"] := by
  have hid := (C8_index_three_tiers browserLists
    { query := "ul", ids := [10], tab := 0 } "id").2.2.1 (by decide)
  have hhref := (C8_index_three_tiers browserLists
    { query := "ul", ids := [10], tab := 0 } "href").2.2.1 (by decide)
  obtain ⟨m, _, _, _, hcl⟩ := (C8_index_three_tiers browserLists
    { query := "ul", ids := [10], tab := 0 } "click").2.1 (by decide)
  obtain ⟨g, _, _, htx, _⟩ := (C8_index_three_tiers browserLists
    { query := "ul", ids := [10], tab := 0 } "text").1 (by decide)
  obtain ⟨_, _, _, _, ht, hi, ho, hv, _⟩ := C8_index_three_tiers browserLists
    { query := "ul", ids := [10], tab := 0 } "text"
  exact ⟨by decide, by decide, by decide, hcl, hid.2.2.2.2.1 "menu" rfl,
    hhref.2.2.2.2.2 "" rfl, htx, ht.2.1 "first" rfl, hi.2.1 "<li>first</li>" rfl,
    ho.2.1 "<ul><li>first</li></ul>" rfl, hv.2.1 "on" rfl⟩

end WebScenario
